import Mathlib

/-!
Shallow embedding of `src/train_waterbirds.py` (FACT-AI repository) and
verification of its specification claims.

The script trains a ResNet-50 classifier on the Waterbirds-100 dataset,
optionally adding a localization loss on attribution maps.  Real-number
quantities (losses, accuracies, learning rates) are modelled with `ℚ`;
tensors carrying an autograd flag are modelled by `Tens`; file-system and
CUDA side effects are modelled by recording the events (saved checkpoints,
dataset loads) as data.  Functions imported from sibling modules of the
repository that are not part of the source file (`metrics`, `utils`,
`losses`, `datasets`) are either taken as abstract function parameters or
modelled from the spec, as marked in their doc comments.
-/

namespace TrainWaterbirds

/-- The four Waterbirds spurious-correlation subgroup names
(`GROUP_NAMES`, line 24 of the script). -/
def GROUP_NAMES : List String :=
  ["Landbird_on_Land", "Landbird_on_Water", "Waterbird_on_Land", "Waterbird_on_Water"]

/-- Maximum of two rationals, written with an explicit comparison. -/
def ratMax (a b : ℚ) : ℚ := if a ≤ b then b else a

/-- Maximum entry of a nonempty 1-D tensor of rationals (`torch.max`).
Returns `0` on the empty tensor (not reached in the script). -/
def tensorMax : List ℚ → ℚ
  | [] => 0
  | x :: xs => xs.foldl ratMax x

/-- `get_loss_upweights` (lines 27-41 of the script):
`counts = [3694, 1101]`, `fracs = 1 / counts`,
`weights = fracs / torch.max(fracs)`.  Real arithmetic is modelled
exactly with `ℚ`. -/
def get_loss_upweights : List ℚ :=
  let counts : List ℚ := [3694, 1101]
  let fracs : List ℚ := counts.map (fun c => 1 / c)
  let weights : List ℚ := fracs.map (fun f => f / tensorMax fracs)
  weights

/-- Configuration of the `torch.nn.BCEWithLogitsLoss` constructed in `main`:
only whether and which rescaling `weight` tensor is passed. -/
structure BCEWithLogitsLossCfg where
  weight : Option (List ℚ)
deriving DecidableEq

/-- The loss-function selection of `main` (lines 251-256): the classification
loss is `BCEWithLogitsLoss(weight=get_loss_upweights())` when
`args.use_loss_weights` is truthy and plain `BCEWithLogitsLoss()` otherwise. -/
def chooseLossFn (use_loss_weights : Bool) : BCEWithLogitsLossCfg :=
  if use_loss_weights then ⟨some get_loss_upweights⟩ else ⟨none⟩

/-- `os.path.join a b` for the path shapes occurring in the script (the second
component is never absolute): appends with a single separator unless the first
component is empty or already ends in `/`. -/
def pathJoin (a b : String) : String :=
  if a = "" then b
  else if a.toList.getLast? = some '/' then a ++ b
  else a ++ "/" ++ b

/-- How the network weights are initialized before fine-tuning, for each of
the three backbone branches of `main` (lines 141-168). -/
inductive PretrainedInit
  /-- `hubconf.resnet50(pretrained=True)` (B-cos ResNet-50). -/
  | bcosHubPretrained
  /-- fixup/xDNN ResNet-50 with weights loaded from the given file. -/
  | xdnnCheckpoint (path : String)
  /-- `torchvision.models.resnet50(weights=ResNet50_Weights.IMAGENET1K_V1)`. -/
  | torchvisionImageNetV1
deriving DecidableEq

/-- Result of the backbone-dispatch branch of `main`: which pretrained model
is built and how many outputs its replacement final classification layer has. -/
structure BackboneSpec where
  pretrained : PretrainedInit
  finalLayerOutputs : Nat
deriving DecidableEq

/-- The backbone dispatch of `main` (lines 132-168): `num_classes = 2`; each
recognized backbone builds its pretrained ResNet-50 variant and replaces the
final layer (`model[0].fc` resp. `model.fc`) with one producing `num_classes`
outputs; any other value raises `NotImplementedError`. -/
def buildBackbone (model_backbone : String) : Except String BackboneSpec :=
  let num_classes := 2
  if model_backbone = "bcos" then
    .ok ⟨.bcosHubPretrained, num_classes⟩
  else if model_backbone = "xdnn" then
    .ok ⟨.xdnnCheckpoint "weights/xdnn/xfixup_resnet50_model_best.pth.tar", num_classes⟩
  else if model_backbone = "vanilla" then
    .ok ⟨.torchvisionImageNetV1, num_classes⟩
  else
    .error "NotImplementedError"

/-- State of the model right before training begins: the pretrained backbone,
and, when `args.model_path` was given, the path of the checkpoint whose
`"model"` entry overwrites the state dict (lines 172-174). -/
structure ModelInit where
  backbone : BackboneSpec
  overrideFrom : Option String
deriving DecidableEq

/-- Model initialization in `main`: backbone dispatch followed by the optional
`model.load_state_dict(torch.load(args.model_path)["model"])` (lines 141-174). -/
def initModel (model_backbone : String) (model_path : Option String) :
    Except String ModelInit :=
  match buildBackbone model_backbone with
  | .error e => .error e
  | .ok b => .ok ⟨b, model_path⟩

/-- One dataset-load event of `main` (lines 222-227): which dataset class is
instantiated, with which root and image set. -/
structure LoadSpec where
  loader : String
  root : String
  image_set : String
deriving DecidableEq

/-- The dataset root of `main` (lines 218-221): built from `--data_path`,
`--dataset` and the task subdirectory. -/
def datasetRoot (data_path dataset task : String) : String :=
  if task = "birds" then pathJoin (pathJoin data_path dataset) "birds_processed/"
  else pathJoin (pathJoin data_path dataset) "background_processed/"

/-- The three dataset loads of `main` (lines 222-227): train, val and test are
all `datasets.WaterbirdsDetectParsed` instances over the same root. -/
def loadDatasets (data_path dataset task : String) : List LoadSpec :=
  let root := datasetRoot data_path dataset task
  [⟨"WaterbirdsDetectParsed", root, "train"⟩,
   ⟨"WaterbirdsDetectParsed", root, "val"⟩,
   ⟨"WaterbirdsDetectParsed", root, "test"⟩]

/-- A scalar tensor value together with its autograd flag (`requires_grad`). -/
structure Tens where
  val : ℚ
  requires_grad : Bool
deriving DecidableEq

/-- `torch.Tensor.detach`. -/
def Tens.detach (t : Tens) : Tens := ⟨t.val, false⟩

/-- Addition of scalar tensors: the result requires grad when either operand
does. -/
def Tens.add (a b : Tens) : Tens := ⟨a.val + b.val, a.requires_grad || b.requires_grad⟩

/-- Whether the network is in training or evaluation mode (`model.train()` /
`model.eval()`). -/
inductive Mode
  | train
  | eval
deriving DecidableEq

/-- The mutable state of the network: its parameters and its mode. -/
structure ModelState (P : Type) where
  params : P
  mode : Mode
deriving DecidableEq

/-- One batch produced by `WaterbirdsDetectParsed.collate_fn`: images, one
multi-hot label vector per image, one optional bounding-box annotation tensor
per image (`None` for unannotated images), and one subgroup index per image. -/
structure Batch (X B : Type) where
  images : List X
  labels : List (List ℚ)
  bbs : List (Option B)
  groups : List Nat
deriving DecidableEq

/-- Modelled from the spec: `metrics.MultiLabelMetrics(num_classes, threshold=0.0)`
comes from the repository's `metrics` module, which is not under `src/`.  The
spec says `eval_model` evaluates overall classification accuracy, so the state
is modelled as the count of correctly classified samples and of all samples. -/
structure MultiLabelMetrics where
  correct : Nat
  total : Nat
deriving DecidableEq

/-- A sample counts as correctly classified at threshold `0.0` when every
class logit is positive exactly for the classes labelled `1`. -/
def predCorrect (logits y : List ℚ) : Bool :=
  decide (logits.length = y.length) &&
    (List.zip logits y).all (fun p => decide (0 < p.1) == decide (p.2 = 1))

/-- Modelled from the spec: `MultiLabelMetrics.update(logits, labels)` adds the
batch's samples to the running counts. -/
def MultiLabelMetrics.update (m : MultiLabelMetrics)
    (logits labels : List (List ℚ)) : MultiLabelMetrics :=
  (List.zip logits labels).foldl
    (fun acc p => ⟨acc.correct + (if predCorrect p.1 p.2 then 1 else 0), acc.total + 1⟩) m

/-- Modelled from the spec: `MultiLabelMetrics.compute()` returns a dict
containing the overall classification accuracy under the key `"Accuracy"`. -/
def MultiLabelMetrics.compute (m : MultiLabelMetrics) : List (String × ℚ) :=
  [("Accuracy", (m.correct : ℚ) / (m.total : ℚ))]

/-- Modelled from the spec: `metrics.GroupedAccuracyMetric(group_names)` comes
from the `metrics` module, which is not under `src/`.  The spec says
`eval_model` evaluates group-wise accuracy across the four subgroups, so the
state is modelled as one `(correct, total)` pair per group name. -/
structure GroupedAccuracyMetric where
  group_names : List String
  counts : List (Nat × Nat)
deriving DecidableEq

/-- Add one sample with subgroup index `g` to per-group counts. -/
def bumpGroup (counts : List (Nat × Nat)) (g : Nat) (ok : Bool) : List (Nat × Nat) :=
  counts.mapIdx (fun i c => if i = g then (c.1 + (if ok then 1 else 0), c.2 + 1) else c)

/-- Modelled from the spec: `GroupedAccuracyMetric.update(logits, labels, groups)`
adds each sample of the batch to the counts of the subgroup it belongs to. -/
def GroupedAccuracyMetric.update (m : GroupedAccuracyMetric)
    (logits labels : List (List ℚ)) (groups : List Nat) : GroupedAccuracyMetric :=
  ⟨m.group_names,
   (List.zip (List.zip logits labels) groups).foldl
     (fun cs p => bumpGroup cs p.2 (predCorrect p.1.1 p.1.2)) m.counts⟩

/-- Modelled from the spec: `GroupedAccuracyMetric.compute()` returns the
per-group accuracies keyed by the group names. -/
def GroupedAccuracyMetric.compute (m : GroupedAccuracyMetric) : List (String × ℚ) :=
  List.zip m.group_names (m.counts.map (fun c => (c.1 : ℚ) / (c.2 : ℚ)))

/-- `torch.where(test_y[img_idx] == 1)[0]`: the indices of the classes
labelled `1` (line 82 of the script). -/
def classTargets (y : List ℚ) : List Nat :=
  (List.range y.length).filter (fun i => decide (y.getD i 0 = 1))

/-- The inner attribution loop of `eval_model` for one batch (lines 81-90):
for every image and every ground-truth class of that image, compute the
attribution map and the filtered bounding-box list that the two bounding-box
metrics are updated with.  `metrics.BoundingBoxEnergyMultiple` and
`metrics.BoundingBoxIoUMultiple` come from the `metrics` module, which is not
under `src/`; their state is modelled as this list of update pairs.
(`utils.filter_bbs` is likewise taken as an abstract parameter.  The eval
splits are fully annotated, so `b.bbs` entries are `some` there; a missing
entry contributes an empty box list.) -/
def batchBBUpdates {F A B : Type}
    (attr : F → List (List ℚ) → Nat → Nat → A)
    (filter_bbs : B → Nat → List B)
    (features : F) (logits : List (List ℚ)) (b : Batch X B) : List (A × List B) :=
  (List.range b.images.length).flatMap (fun img_idx =>
    (classTargets (b.labels.getD img_idx [])).map (fun pred =>
      (attr features logits pred img_idx,
       match b.bbs.getD img_idx none with
       | some t => filter_bbs t pred
       | none => [])))

/-- The accumulator of the batch loop of `eval_model`: `total_loss`, the two
accuracy metrics and the bounding-box metric updates. -/
structure BatchAcc (A B : Type) where
  total_loss : Tens
  am : MultiLabelMetrics
  gm : GroupedAccuracyMetric
  bb_updates : List (A × List B)
deriving DecidableEq

/-- The batch loop of `eval_model` (lines 67-90): the model runs in eval mode,
each batch's loss is detached and accumulated, the accuracy metrics are
updated on every batch, and the bounding-box metrics only when an attributor
is present. -/
def evalBatches {P X F A B : Type}
    (fwd : P → Mode → List X → List (List ℚ) × F)
    (p : P)
    (attributor : Option (F → List (List ℚ) → Nat → Nat → A))
    (filter_bbs : B → Nat → List B)
    (loss_fn : List (List ℚ) → List (List ℚ) → Tens) :
    List (Batch X B) → BatchAcc A B → BatchAcc A B
  | [], acc => acc
  | b :: rest, acc =>
    let fr := fwd p Mode.eval b.images
    let logits := fr.1
    let loss := (loss_fn logits b.labels).detach
    let acc2 : BatchAcc A B :=
      { total_loss := acc.total_loss.add loss
        am := acc.am.update logits b.labels
        gm := acc.gm.update logits b.labels b.groups
        bb_updates := acc.bb_updates ++
          (match attributor with
           | some attr => batchBBUpdates attr filter_bbs fr.2 logits b
           | none => []) }
    evalBatches fwd p attributor filter_bbs loss_fn rest acc2

/-- Result of `eval_model`: the returned metrics dict, the printed group
accuracies, the bounding-box metric updates performed, the accumulated loss
tensor, the model mode during the batch loop, and the model state on return. -/
structure EvalResult (P A B : Type) where
  metric_vals : List (String × ℚ)
  group_acc_vals : List (String × ℚ)
  bb_updates : List (A × List B)
  total_loss : Tens
  duringMode : Mode
  modelState : ModelState P
deriving DecidableEq

/-- `eval_model` (lines 43-120 of the script).  The forward pass, the
attributor, `utils.filter_bbs` and the `compute` aggregations of the two
bounding-box metrics are abstract parameters; the tensorboard writer only
emits log events and is not modelled. -/
def eval_model {P X F A B : Type}
    (fwd : P → Mode → List X → List (List ℚ) × F)
    (attributor : Option (F → List (List ℚ) → Nat → Nat → A))
    (filter_bbs : B → Nat → List B)
    (bbCompute iouCompute : List (A × List B) → ℚ)
    (loader : List (Batch X B)) (num_batches : ℚ)
    (loss_fn : List (List ℚ) → List (List ℚ) → Tens)
    (group_names : List String)
    (ms : ModelState P) : EvalResult P A B :=
  let st : ModelState P := { ms with mode := Mode.eval }
  let acc0 : BatchAcc A B :=
    ⟨⟨0, false⟩, ⟨0, 0⟩, ⟨group_names, group_names.map (fun _ => (0, 0))⟩, []⟩
  let acc := evalBatches fwd st.params attributor filter_bbs loss_fn loader acc0
  let metric_vals := acc.am.compute
  let metric_vals := metric_vals ++
    (match attributor with
     | some _ => [("BB-Loc", bbCompute acc.bb_updates), ("BB-IoU", iouCompute acc.bb_updates)]
     | none => [])
  let metric_vals := metric_vals ++ [("Average-Loss", acc.total_loss.val / num_batches)]
  { metric_vals := metric_vals
    group_acc_vals := acc.gm.compute
    bb_updates := acc.bb_updates
    total_loss := acc.total_loss
    duringMode := st.mode
    modelState := { st with mode := Mode.train } }

/-- The localization-loss accumulation of one training batch (lines 299-316 of
the script): `localization_loss = 0`; then for `img_idx in range(len(train_X))`,
images whose `train_bbs[img_idx]` is `None` are skipped, and for the others
`loss_loc(attributions[img_idx], bb_list)` is added, where `bb_list` is
`utils.filter_bbs(train_bbs[img_idx], gt_classes[img_idx])`, optionally
dilated by `utils.enlarge_bb` when `box_dilation_percentage > 0`.
`loss_loc`, `filter_bbs` and `enlarge_bb` come from the repository's `losses`
and `utils` modules, which are not under `src/`, and are abstract parameters. -/
def localization_loss_total {A B : Type} [Inhabited A]
    (loss_loc : A → List B → ℚ)
    (filter_bbs : B → Nat → List B)
    (enlarge_bb : List B → ℚ → List B)
    (box_dilation_percentage : ℚ)
    (n : Nat)
    (attributions : List A) (train_bbs : List (Option B)) (gt_classes : List Nat) : ℚ :=
  (List.range n).foldl
    (fun acc img_idx =>
      match train_bbs.getD img_idx none with
      | none => acc
      | some t =>
        let bb_list := filter_bbs t (gt_classes.getD img_idx 0)
        let bb_list :=
          if 0 < box_dilation_percentage then enlarge_bb bb_list box_dilation_percentage
          else bb_list
        acc + loss_loc (attributions.getD img_idx default) bb_list)
    0

/-- The loss that is backpropagated for one training batch (lines 288-318 of
the script): `batch_loss = 0`; `batch_loss += loss_fn(logits, train_y)`; when
`args.optimize_explanations` is set,
`batch_loss += localization_loss_lambda * localization_loss`. -/
def train_batch_loss {A B : Type} [Inhabited A]
    (optimize_explanations : Bool) (localization_loss_lambda : ℚ)
    (loss_loc : A → List B → ℚ)
    (filter_bbs : B → Nat → List B)
    (enlarge_bb : List B → ℚ → List B)
    (box_dilation_percentage : ℚ)
    (classification_loss : ℚ)
    (n : Nat)
    (attributions : List A) (train_bbs : List (Option B)) (gt_classes : List Nat) : ℚ :=
  let batch_loss : ℚ := 0
  let batch_loss := batch_loss + classification_loss
  if optimize_explanations then
    batch_loss + localization_loss_lambda *
      localization_loss_total loss_loc filter_bbs enlarge_bb box_dilation_percentage
        n attributions train_bbs gt_classes
  else
    batch_loss

/-- Metrics dicts are association lists from metric names to rationals. -/
abbrev Metrics := List (String × ℚ)

/-- The `"Accuracy"` entry of a metrics dict, as read by the accuracy
tracker. -/
def trackerAcc (mv : Metrics) : ℚ := (mv.lookup "Accuracy").getD 0

/-- Modelled from the spec: `utils.BestMetricTracker("Accuracy")` comes from
the repository's `utils` module, which is not under `src/`.  It tracks the
model with the best validation accuracy seen so far: `get_best()` yields
`(None, None, None, None)` before the first update, and `update(metric_vals,
model, e)` stores `(accuracy, model, epoch, metric_vals)` whenever the new
`"Accuracy"` entry strictly improves on the stored one. -/
structure BestMetricTracker (P : Type) where
  best : Option (ℚ × P × Nat × Metrics)
deriving DecidableEq

/-- Modelled from the spec: the update step of `utils.BestMetricTracker`. -/
def BestMetricTracker.update {P : Type} (t : BestMetricTracker P)
    (mv : Metrics) (p : P) (e : Nat) : BestMetricTracker P :=
  match t.best with
  | none => ⟨some (trackerAcc mv, p, e, mv)⟩
  | some b => if b.1 < trackerAcc mv then ⟨some (trackerAcc mv, p, e, mv)⟩ else t

/-- One `torch.save` call performed directly by `main`: the file path and the
relevant entries of the saved dict (`"model"`, `"BelowThresh"` when present,
`"epochs"`, and the numeric metric entries). -/
structure SavedCheckpoint (P : Type) where
  path : String
  model : Option P
  belowThresh : Option Bool
  epochs : Nat
  metrics : Metrics
deriving DecidableEq

/-- The arguments of `main` that drive the training loop, the early-stopping
check and the checkpoint bookkeeping.  `out_name` is the run name built on
lines 184-194 from the hyperparameters (its float components use Python's
`str` rendering, so it is carried as an opaque string here). -/
structure TrainArgs where
  total_epochs : Nat
  evaluation_frequency : Nat
  min_acc : ℚ
  pareto : Bool
  save_path : String
  dataset : String
  task : String
  out_name : String
deriving DecidableEq

/-- The directory checkpoints are saved under (line 196 of the script):
`os.path.join(args.save_path, args.dataset, args.task, out_name)`. -/
def runSavePath (a : TrainArgs) : String :=
  pathJoin (pathJoin (pathJoin a.save_path a.dataset) a.task) a.out_name

/-- The loop-carried state of `main`'s training loop: the model parameters,
the accuracy tracker, the last validation metrics (`None` before the first
evaluation, mirroring the unbound Python local), the epochs at which
evaluation ran, the checkpoints saved so far, the epochs at which the Pareto
tracker was updated, and the number of `save_pareto_front` calls. -/
structure LoopState (P : Type) where
  params : P
  tracker : BestMetricTracker P
  metric_vals : Option Metrics
  evalEpochs : List Nat
  saved : List (SavedCheckpoint P)
  paretoUpdates : List Nat
  paretoSaved : Nat
deriving DecidableEq

/-- The checkpoint saved when training stops early (lines 337-341 of the
script): the current metrics dict updated with `"model": None`,
`"epochs": e+1` and `"BelowThresh": True`, saved as
`model_checkpoint_stopped_{e+1}.pt`. -/
def stoppedCkpt {P : Type} (a : TrainArgs) (e : Nat) (mv : Metrics) : SavedCheckpoint P :=
  { path := pathJoin (runSavePath a) ("model_checkpoint_stopped_" ++ toString (e + 1) ++ ".pt")
    model := none
    belowThresh := some true
    epochs := e + 1
    metrics := mv }

/-- One iteration of the epoch loop of `main` (lines 282-345): run the
epoch's gradient steps, then, when `(e+1)` is a multiple of
`evaluation_frequency`, evaluate on the validation loader, update the Pareto
tracker when `--pareto` is set, fetch the best accuracy recorded so far, stop
early (`Except.error`) when it exists and is below `min_acc`, and otherwise
update the accuracy tracker with the current metrics.  `trainEpoch` abstracts
the gradient updates of the epoch and `valMetrics` the metrics dict returned
by `eval_model` on the validation loader at that epoch. -/
def epochStep {P : Type} (a : TrainArgs)
    (trainEpoch : Nat → P → P)
    (valMetrics : Nat → Metrics)
    (e : Nat) (st : LoopState P) : Except (LoopState P) (LoopState P) :=
  if (e + 1) % a.evaluation_frequency = 0 then
    match st.tracker.best with
    | some b =>
      if b.1 < a.min_acc then
        .error { params := trainEpoch e st.params, tracker := st.tracker,
                 metric_vals := some (valMetrics e),
                 evalEpochs := st.evalEpochs ++ [e],
                 saved := st.saved ++ [stoppedCkpt a e (valMetrics e)],
                 paretoUpdates := if a.pareto then st.paretoUpdates ++ [e]
                                  else st.paretoUpdates,
                 paretoSaved := if a.pareto then st.paretoSaved + 1 else st.paretoSaved }
      else
        .ok { params := trainEpoch e st.params,
              tracker := st.tracker.update (valMetrics e) (trainEpoch e st.params) e,
              metric_vals := some (valMetrics e),
              evalEpochs := st.evalEpochs ++ [e], saved := st.saved,
              paretoUpdates := if a.pareto then st.paretoUpdates ++ [e]
                               else st.paretoUpdates,
              paretoSaved := st.paretoSaved }
    | none =>
      .ok { params := trainEpoch e st.params,
            tracker := st.tracker.update (valMetrics e) (trainEpoch e st.params) e,
            metric_vals := some (valMetrics e),
            evalEpochs := st.evalEpochs ++ [e], saved := st.saved,
            paretoUpdates := if a.pareto then st.paretoUpdates ++ [e]
                             else st.paretoUpdates,
            paretoSaved := st.paretoSaved }
  else
    .ok { st with params := trainEpoch e st.params }

/-- The epoch loop of `main` run over a list of epoch indices; the second
component records the epoch at which `main` returned early, if any. -/
def runEpochs {P : Type} (a : TrainArgs)
    (trainEpoch : Nat → P → P) (valMetrics : Nat → Metrics) :
    List Nat → LoopState P → LoopState P × Option Nat
  | [], st => (st, none)
  | e :: rest, st =>
    match epochStep a trainEpoch valMetrics e st with
    | .error st2 => (st2, some e)
    | .ok st2 => runEpochs a trainEpoch valMetrics rest st2

/-- A Python runtime error raised by `main` after the loop. -/
inductive PyError
  /-- A local variable was referenced before assignment. -/
  | nameError (name : String)
  /-- `model.load_state_dict` was called with `None`. -/
  | loadStateDictNone
deriving DecidableEq

/-- The epilogue of `main` after a completed loop (lines 347-371 of the
script): save the Pareto front when `--pareto` is set, re-evaluate the final
and the best-accuracy models on the test loader, and save the two checkpoints
`model_checkpoint_final_{e+1}.pt` (where `e+1 = total_epochs`, `e` being the
loop variable after the completed loop) and `model_checkpoint_acc_best.pt`.
Referencing `metric_vals` when no evaluation ever ran raises `NameError` (as
does `e` when `total_epochs = 0`, which also leaves `metric_vals` unbound).
`testMetricsOf` abstracts `eval_model` on the test loader and
`update_val_metrics` abstracts `utils.update_val_metrics`. -/
def mainEpilogue {P : Type} (a : TrainArgs)
    (testMetricsOf : P → Metrics)
    (update_val_metrics : Metrics → Metrics)
    (st : LoopState P) : Except PyError (LoopState P) :=
  match st.metric_vals with
  | none => .error (.nameError "metric_vals")
  | some mv =>
    let final_metric_vals := update_val_metrics mv
    let final_test := testMetricsOf st.params
    match st.tracker.best with
    | none => .error .loadStateDictNone
    | some b =>
      let finalCkpt : SavedCheckpoint P :=
        { path := pathJoin (runSavePath a)
            ("model_checkpoint_final_" ++ toString a.total_epochs ++ ".pt")
          model := some st.params
          belowThresh := none
          epochs := a.total_epochs
          metrics := final_test ++ final_metric_vals }
      let bestCkpt : SavedCheckpoint P :=
        { path := pathJoin (runSavePath a) "model_checkpoint_acc_best.pt"
          model := some b.2.1
          belowThresh := none
          epochs := b.2.2.1 + 1
          metrics := testMetricsOf b.2.1 ++ update_val_metrics b.2.2.2 }
      .ok { st with
        params := b.2.1
        saved := st.saved ++ [finalCkpt, bestCkpt]
        paretoSaved := if a.pareto then st.paretoSaved + 1 else st.paretoSaved }

/-- The result of a full run of `main`'s training phase: the final loop state
and the epoch of early termination, if any. -/
structure RunOutcome (P : Type) where
  state : LoopState P
  stoppedAt : Option Nat
deriving DecidableEq

/-- The loop state before the first epoch. -/
def initState {P : Type} (p0 : P) : LoopState P :=
  ⟨p0, ⟨none⟩, none, [], [], [], 0⟩

/-- A full run of `main` from the start of the training loop: the epoch loop
followed, when it completes without early return, by the epilogue. -/
def runTraining {P : Type} (a : TrainArgs)
    (trainEpoch : Nat → P → P) (valMetrics : Nat → Metrics)
    (testMetricsOf : P → Metrics) (update_val_metrics : Metrics → Metrics)
    (p0 : P) : Except PyError (RunOutcome P) :=
  match runEpochs a trainEpoch valMetrics (List.range a.total_epochs) (initState p0) with
  | (st, some e) => .ok ⟨st, some e⟩
  | (st, none) =>
    match mainEpilogue a testMetricsOf update_val_metrics st with
    | .error err => .error err
    | .ok st2 => .ok ⟨st2, none⟩

/-- The parameters after the first `k` training epochs. -/
def paramsUpTo {P : Type} (trainEpoch : Nat → P → P) (p0 : P) (k : Nat) : P :=
  (List.range k).foldl (fun p e => trainEpoch e p) p0

/-- Verification invariant of the training loop after the first `k` epochs
were processed without early return: the parameters are those after `k`
epochs, evaluation ran exactly at the epochs `e < k` with
`(e+1) % evaluation_frequency = 0`, no checkpoint has been saved, the last
validation metrics are those of the most recent evaluation, and the accuracy
tracker holds the best evaluation so far (with the model recorded at its
epoch). -/
structure LoopInv {P : Type} (a : TrainArgs) (trainEpoch : Nat → P → P)
    (valMetrics : Nat → Metrics) (p0 : P) (k : Nat) (st : LoopState P) : Prop where
  params_eq : st.params = paramsUpTo trainEpoch p0 k
  eval_mem : ∀ e ∈ st.evalEpochs, e < k ∧ (e + 1) % a.evaluation_frequency = 0
  eval_complete : ∀ e, e < k → (e + 1) % a.evaluation_frequency = 0 → e ∈ st.evalEpochs
  saved_nil : st.saved = []
  mv_eq : st.metric_vals = st.evalEpochs.getLast?.map valMetrics
  tracker_none : st.tracker.best = none ↔ st.evalEpochs = []
  tracker_some : ∀ s p eB mv, st.tracker.best = some (s, p, eB, mv) →
    eB ∈ st.evalEpochs ∧ s = trackerAcc (valMetrics eB) ∧ mv = valMetrics eB ∧
    p = paramsUpTo trainEpoch p0 (eB + 1) ∧
    ∀ e ∈ st.evalEpochs, trackerAcc (valMetrics e) ≤ s

/-- A concrete argument set under which the training loop completes without
early termination but no evaluation ever runs: one epoch, evaluation every
two epochs. -/
def c6Args : TrainArgs :=
  { total_epochs := 1, evaluation_frequency := 2, min_acc := -1, pareto := false,
    save_path := "checkpoints/", dataset := "Waterbirds-100", task := "birds",
    out_name := "vanilla_standard_attrNone_loclossNone_origNone_resnet50" }

/-- A concrete argument set for a completed run with evaluations: two epochs,
evaluation every epoch, `min_acc = 0` never triggering the early stop. -/
def c6WitnessArgs : TrainArgs :=
  { total_epochs := 2, evaluation_frequency := 1, min_acc := 0, pareto := false,
    save_path := "checkpoints/", dataset := "Waterbirds-100", task := "birds",
    out_name := "vanilla_standard_attrNone_loclossNone_origNone_resnet50" }

/-- A concrete argument set for an early-stopping run: evaluation every
epoch and a `min_acc` threshold of `1` that the recorded accuracy `0` is
below from the second evaluation on. -/
def c8Args : TrainArgs :=
  { total_epochs := 3, evaluation_frequency := 1, min_acc := 1, pareto := false,
    save_path := "checkpoints/", dataset := "Waterbirds-100", task := "background",
    out_name := "bcos_standard_attrNone_loclossNone_origNone_resnet50" }

/-- The validation metrics of the concrete early-stopping run: accuracy `0`
at every evaluation. -/
def c8Val : Nat → Metrics := fun _ => [("Accuracy", 0)]

/-- The outcome of the concrete early-stopping run. -/
def c8Out : RunOutcome Unit :=
  match runTraining c8Args (fun _ p => p) c8Val (fun _ => []) (fun mv => mv) () with
  | .ok o => o
  | .error _ => ⟨initState (), none⟩

/-! ### Shared helper lemmas -/

/-- `ratMax` agrees with the lattice `max` on `ℚ`. -/
theorem ratMax_eq_max (a b : ℚ) : ratMax a b = max a b := by
  simp [ratMax, max_def]

/-- `bumpGroup` preserves the number of groups. -/
theorem bumpGroup_length (cs : List (Nat × Nat)) (g : Nat) (ok : Bool) :
    (bumpGroup cs g ok).length = cs.length := by
  simp [bumpGroup]

/-- The grouped-accuracy update preserves the group names and the number of
per-group counters. -/
theorem GroupedAccuracyMetric.update_names_counts (m : GroupedAccuracyMetric)
    (logits labels : List (List ℚ)) (groups : List Nat) :
    (m.update logits labels groups).group_names = m.group_names ∧
    (m.update logits labels groups).counts.length = m.counts.length := by
  refine ⟨rfl, ?_⟩
  show (List.foldl _ m.counts _).length = _
  generalize List.zip (List.zip logits labels) groups = zs
  induction zs generalizing m with
  | nil => rfl
  | cons z zs ih =>
    rw [List.foldl_cons]
    have := ih ⟨m.group_names, bumpGroup m.counts z.2 (predCorrect z.1.1 z.1.2)⟩
    simpa [bumpGroup_length] using this

/-- The batch loop of `eval_model` preserves the group names and the number of
per-group counters of the grouped-accuracy metric. -/
theorem evalBatches_gm {P X F A B : Type}
    (fwd : P → Mode → List X → List (List ℚ) × F) (p : P)
    (attributor : Option (F → List (List ℚ) → Nat → Nat → A))
    (filter_bbs : B → Nat → List B)
    (loss_fn : List (List ℚ) → List (List ℚ) → Tens) :
    ∀ (l : List (Batch X B)) (acc : BatchAcc A B),
      (evalBatches fwd p attributor filter_bbs loss_fn l acc).gm.group_names =
        acc.gm.group_names ∧
      (evalBatches fwd p attributor filter_bbs loss_fn l acc).gm.counts.length =
        acc.gm.counts.length := by
  intro l
  induction l with
  | nil => intro acc; exact ⟨rfl, rfl⟩
  | cons b rest ih =>
    intro acc
    simp only [evalBatches]
    refine ⟨(ih _).1.trans ?_, (ih _).2.trans ?_⟩
    · exact (GroupedAccuracyMetric.update_names_counts _ _ _ _).1
    · exact (GroupedAccuracyMetric.update_names_counts _ _ _ _).2

/-- The loss accumulated by the batch loop of `eval_model`: its value is the
sum of the per-batch losses, and its autograd flag is unchanged because every
batch loss is detached before being accumulated. -/
theorem evalBatches_total_loss {P X F A B : Type}
    (fwd : P → Mode → List X → List (List ℚ) × F) (p : P)
    (attributor : Option (F → List (List ℚ) → Nat → Nat → A))
    (filter_bbs : B → Nat → List B)
    (loss_fn : List (List ℚ) → List (List ℚ) → Tens) :
    ∀ (l : List (Batch X B)) (acc : BatchAcc A B),
      (evalBatches fwd p attributor filter_bbs loss_fn l acc).total_loss =
        ⟨acc.total_loss.val +
          (l.map (fun b => (loss_fn (fwd p Mode.eval b.images).1 b.labels).val)).sum,
         acc.total_loss.requires_grad⟩ := by
  intro l
  induction l with
  | nil => intro acc; simp [evalBatches]
  | cons b rest ih =>
    intro acc
    simp only [evalBatches]
    rw [ih]
    simp only [Tens.add, Tens.detach, List.map_cons, List.sum_cons, Tens.mk.injEq,
      Bool.or_false]
    exact ⟨by ring, trivial⟩

/-- When no attributor is passed, the batch loop of `eval_model` performs no
bounding-box metric updates. -/
theorem evalBatches_bb_none {P X F A B : Type}
    (fwd : P → Mode → List X → List (List ℚ) × F) (p : P)
    (filter_bbs : B → Nat → List B)
    (loss_fn : List (List ℚ) → List (List ℚ) → Tens) :
    ∀ (l : List (Batch X B)) (acc : BatchAcc A B),
      (evalBatches fwd p (A := A) none filter_bbs loss_fn l acc).bb_updates =
        acc.bb_updates := by
  intro l
  induction l with
  | nil => intro acc; simp [evalBatches]
  | cons b rest ih =>
    intro acc
    simp only [evalBatches]
    exact (ih _).trans (by simp)

/-- Unfolding `paramsUpTo` one epoch at a time. -/
theorem paramsUpTo_succ {P : Type} (te : Nat → P → P) (p0 : P) (k : Nat) :
    paramsUpTo te p0 (k + 1) = te k (paramsUpTo te p0 k) := by
  unfold paramsUpTo
  rw [List.range_succ, List.foldl_append, List.foldl_cons, List.foldl_nil]

/-- The loop invariant holds before the first epoch. -/
theorem LoopInv_init {P : Type} (a : TrainArgs) (te : Nat → P → P)
    (vm : Nat → Metrics) (p0 : P) : LoopInv a te vm p0 0 (initState p0) := by
  constructor <;> simp [initState, paramsUpTo]

/-- A successful `epochStep` preserves the loop invariant, advancing it by one
epoch. -/
theorem epochStep_ok_inv {P : Type} {a : TrainArgs} {te : Nat → P → P}
    {vm : Nat → Metrics} {p0 : P} {k : Nat} {st st2 : LoopState P}
    (hInv : LoopInv a te vm p0 k st)
    (h : epochStep a te vm k st = .ok st2) :
    LoopInv a te vm p0 (k + 1) st2 := by
  unfold epochStep at h
  by_cases hk : (k + 1) % a.evaluation_frequency = 0
  · rw [if_pos hk] at h
    cases hb : st.tracker.best with
    | some b =>
      simp only [hb] at h
      by_cases hstop : b.1 < a.min_acc
      · rw [if_pos hstop] at h
        cases h
      · rw [if_neg hstop] at h
        obtain ⟨hIn, hAcc, hMvB, hPB, hMax⟩ := hInv.tracker_some b.1 b.2.1 b.2.2.1 b.2.2.2 hb
        cases h
        constructor
        · show te k st.params = _
          rw [paramsUpTo_succ, hInv.params_eq]
        · intro e he
          rcases List.mem_append.1 he with h1 | h1
          · exact ⟨Nat.lt_succ_of_lt (hInv.eval_mem e h1).1, (hInv.eval_mem e h1).2⟩
          · rw [List.mem_singleton] at h1
            subst h1
            exact ⟨Nat.lt_succ_self _, hk⟩
        · intro e he hp
          rcases Nat.lt_succ_iff_lt_or_eq.1 he with h1 | h1
          · exact List.mem_append_left _ (hInv.eval_complete e h1 hp)
          · subst h1
            exact List.mem_append_right _ (List.mem_singleton.2 rfl)
        · exact hInv.saved_nil
        · show some (vm k) = _
          rw [List.getLast?_concat]
          rfl
        · constructor
          · intro hnone
            exfalso
            revert hnone
            show ¬ (BestMetricTracker.update _ _ _ _).best = none
            simp only [BestMetricTracker.update, hb]
            split_ifs <;> simp [hb]
          · intro habs
            exact absurd habs (by simp)
        · intro s p eB mv hsome
          show _ ∈ _ ++ [k] ∧ _
          simp only [BestMetricTracker.update, hb] at hsome
          split_ifs at hsome with hlt
          · simp only [Option.some.injEq, Prod.mk.injEq] at hsome
            obtain ⟨hs, hp, heB, hmv⟩ := hsome
            subst hs; subst hp; subst heB; subst hmv
            refine ⟨List.mem_append_right _ (List.mem_singleton.2 rfl), rfl, rfl, ?_, ?_⟩
            · rw [paramsUpTo_succ, hInv.params_eq]
            · intro e he
              rcases List.mem_append.1 he with h1 | h1
              · exact le_of_lt (lt_of_le_of_lt (hMax e h1) hlt)
              · rw [List.mem_singleton] at h1
                subst h1
                exact le_refl _
          · have hsome2 : b = (s, p, eB, mv) := by
              first
              | exact hsome
              | simpa using hsome
              | simpa using hsome.symm
              | (rw [hb] at hsome; simpa using hsome)
            subst hsome2
            refine ⟨List.mem_append_left _ hIn, hAcc, hMvB, hPB, ?_⟩
            intro e he
            rcases List.mem_append.1 he with h1 | h1
            · exact hMax e h1
            · rw [List.mem_singleton] at h1
              subst h1
              exact le_of_not_lt hlt
    | none =>
      simp only [hb] at h
      have hEmpty : st.evalEpochs = [] := hInv.tracker_none.1 hb
      cases h
      constructor
      · show te k st.params = _
        rw [paramsUpTo_succ, hInv.params_eq]
      · intro e he
        rw [hEmpty, List.nil_append, List.mem_singleton] at he
        subst he
        exact ⟨Nat.lt_succ_self _, hk⟩
      · intro e he hp
        rcases Nat.lt_succ_iff_lt_or_eq.1 he with h1 | h1
        · exact List.mem_append_left _ (hInv.eval_complete e h1 hp)
        · subst h1
          exact List.mem_append_right _ (List.mem_singleton.2 rfl)
      · exact hInv.saved_nil
      · show some (vm k) = _
        rw [List.getLast?_concat]
        rfl
      · constructor
        · intro hnone
          exfalso
          revert hnone
          show ¬ (BestMetricTracker.update _ _ _ _).best = none
          simp [BestMetricTracker.update, hb]
        · intro habs
          exact absurd habs (by simp)
      · intro s p eB mv hsome
        show _ ∈ _ ++ [k] ∧ _
        simp only [BestMetricTracker.update, hb, Option.some.injEq, Prod.mk.injEq] at hsome
        obtain ⟨hs, hp, heB, hmv⟩ := hsome
        subst hs; subst hp; subst heB; subst hmv
        refine ⟨List.mem_append_right _ (List.mem_singleton.2 rfl), rfl, rfl, ?_, ?_⟩
        · rw [paramsUpTo_succ, hInv.params_eq]
        · intro e he
          rw [hEmpty, List.nil_append, List.mem_singleton] at he
          subst he
          exact le_refl _
  · rw [if_neg hk] at h
    cases h
    constructor
    · show te k st.params = _
      rw [paramsUpTo_succ, hInv.params_eq]
    · intro e he
      exact ⟨Nat.lt_succ_of_lt (hInv.eval_mem e he).1, (hInv.eval_mem e he).2⟩
    · intro e he hp
      rcases Nat.lt_succ_iff_lt_or_eq.1 he with h1 | h1
      · exact hInv.eval_complete e h1 hp
      · subst h1
        exact absurd hp hk
    · exact hInv.saved_nil
    · exact hInv.mv_eq
    · exact hInv.tracker_none
    · exact hInv.tracker_some

/-- Characterization of an early stop: it happens only at an evaluation
epoch, it saves exactly the stopped checkpoint, and the accuracy it compared
against `min_acc` is the best of the strictly earlier evaluations (so some
earlier evaluation exists and all earlier evaluations scored below
`min_acc`). -/
theorem epochStep_stop {P : Type} {a : TrainArgs} {te : Nat → P → P}
    {vm : Nat → Metrics} {p0 : P} {k : Nat} {st st2 : LoopState P}
    (hInv : LoopInv a te vm p0 k st)
    (h : epochStep a te vm k st = .error st2) :
    (k + 1) % a.evaluation_frequency = 0 ∧
    st2.saved = [stoppedCkpt a k (vm k)] ∧
    st2.evalEpochs = st.evalEpochs ++ [k] ∧
    st2.metric_vals = some (vm k) ∧
    (∃ e ∈ st.evalEpochs, e < k) ∧
    (∀ e ∈ st.evalEpochs, trackerAcc (vm e) < a.min_acc) := by
  unfold epochStep at h
  by_cases hk : (k + 1) % a.evaluation_frequency = 0
  · rw [if_pos hk] at h
    cases hb : st.tracker.best with
    | none => simp only [hb] at h; cases h
    | some b =>
      simp only [hb] at h
      by_cases hstop : b.1 < a.min_acc
      · rw [if_pos hstop] at h
        obtain ⟨hIn, hAcc, hMvB, hPB, hMax⟩ := hInv.tracker_some b.1 b.2.1 b.2.2.1 b.2.2.2 hb
        cases h
        refine ⟨hk, ?_, rfl, rfl, ⟨b.2.2.1, hIn, (hInv.eval_mem _ hIn).1⟩, ?_⟩
        · show st.saved ++ _ = _
          rw [hInv.saved_nil, List.nil_append]
        · intro e he
          exact lt_of_le_of_lt (hMax e he) hstop
      · rw [if_neg hstop] at h
        cases h
  · rw [if_neg hk] at h
    cases h

/-- Running the epoch loop over epochs `[k, k+m)` from an invariant state
either completes with the invariant at `k+m`, or returns early at some
epoch `s` with the early-stopping properties of claim C8. -/
theorem runEpochs_inv {P : Type} (a : TrainArgs) (te : Nat → P → P)
    (vm : Nat → Metrics) (p0 : P) :
    ∀ (m k : Nat) (st : LoopState P), LoopInv a te vm p0 k st →
      (∃ st2, runEpochs a te vm (List.range' k m) st = (st2, none) ∧
        LoopInv a te vm p0 (k + m) st2) ∨
      (∃ st2 s, runEpochs a te vm (List.range' k m) st = (st2, some s) ∧
        k ≤ s ∧ s < k + m ∧ (s + 1) % a.evaluation_frequency = 0 ∧
        st2.saved = [stoppedCkpt a s (vm s)] ∧
        st2.metric_vals = some (vm s) ∧
        (∀ e ∈ st2.evalEpochs, (e + 1) % a.evaluation_frequency = 0) ∧
        (∃ e ∈ st2.evalEpochs, e < s) ∧
        (∀ e ∈ st2.evalEpochs, e < s → trackerAcc (vm e) < a.min_acc)) := by
  intro m
  induction m with
  | zero =>
    intro k st hInv
    left
    exact ⟨st, rfl, by simpa using hInv⟩
  | succ m ih =>
    intro k st hInv
    rw [List.range'_succ]
    cases hstep : epochStep a te vm k st with
    | ok st1 =>
      have hInv1 := epochStep_ok_inv hInv hstep
      rcases ih (k + 1) st1 hInv1 with
        ⟨st2, hrun, hInv2⟩ | ⟨st2, s, hrun, hks, hsm, hfreq, hsv, hmv, hall, hex, hbelow⟩
      · left
        refine ⟨st2, ?_, ?_⟩
        · simp [runEpochs, hstep, hrun]
        · have : k + (m + 1) = k + 1 + m := by omega
          rw [this]
          exact hInv2
      · right
        refine ⟨st2, s, ?_, by omega, by omega, hfreq, hsv, hmv, hall, hex, hbelow⟩
        simp [runEpochs, hstep, hrun]
    | error st1 =>
      obtain ⟨hfreq, hsv, hee, hmv, hex, hbelow⟩ := epochStep_stop hInv hstep
      right
      refine ⟨st1, k, ?_, le_refl k, by omega, hfreq, hsv, hmv, ?_, ?_, ?_⟩
      · simp [runEpochs, hstep]
      · intro e he
        rw [hee] at he
        rcases List.mem_append.1 he with h1 | h1
        · exact (hInv.eval_mem e h1).2
        · rw [List.mem_singleton] at h1
          subst h1
          exact hfreq
      · obtain ⟨e, he, helt⟩ := hex
        exact ⟨e, by rw [hee]; exact List.mem_append_left _ he, helt⟩
      · intro e he helt
        rw [hee] at he
        rcases List.mem_append.1 he with h1 | h1
        · exact hbelow e h1
        · rw [List.mem_singleton] at h1
          omega

/-- A successful epilogue: when the last validation metrics and a tracked
best model exist, `mainEpilogue` appends exactly the final and the best
checkpoints (in this order) to the saved list. -/
theorem mainEpilogue_eq {P : Type} (a : TrainArgs) (tm : P → Metrics)
    (uvm : Metrics → Metrics) (st : LoopState P) (mv : Metrics)
    (b : ℚ × P × Nat × Metrics)
    (hmv : st.metric_vals = some mv) (hb : st.tracker.best = some b) :
    mainEpilogue a tm uvm st = .ok { st with
      params := b.2.1
      saved := st.saved ++
        [⟨pathJoin (runSavePath a)
            ("model_checkpoint_final_" ++ toString a.total_epochs ++ ".pt"),
          some st.params, none, a.total_epochs, tm st.params ++ uvm mv⟩,
         ⟨pathJoin (runSavePath a) "model_checkpoint_acc_best.pt",
          some b.2.1, none, b.2.2.1 + 1, tm b.2.1 ++ uvm b.2.2.2⟩]
      paretoSaved := if a.pareto then st.paretoSaved + 1 else st.paretoSaved } := by
  simp only [mainEpilogue, hmv, hb]

/-- An epilogue that raises a Python error saves nothing: it happens exactly
when no evaluation ever ran (`metric_vals` resp. the tracker still unset). -/
theorem mainEpilogue_evalEpochs {P : Type} {a : TrainArgs} {tm : P → Metrics}
    {uvm : Metrics → Metrics} {st st2 : LoopState P}
    (h : mainEpilogue a tm uvm st = .ok st2) :
    st2.evalEpochs = st.evalEpochs := by
  unfold mainEpilogue at h
  cases hmv : st.metric_vals with
  | none => simp only [hmv] at h; cases h
  | some mv =>
    simp only [hmv] at h
    cases hb : st.tracker.best with
    | none => simp only [hb] at h; cases h
    | some b =>
      simp only [hb] at h
      cases h
      rfl

/-- The localization-loss loop over a batch equals the sum of per-image
contributions, images without a bounding-box annotation contributing `0`. -/
theorem localization_loss_total_eq_sum {A B : Type} [Inhabited A]
    (loss_loc : A → List B → ℚ) (filter_bbs : B → Nat → List B)
    (enlarge_bb : List B → ℚ → List B) (box_dilation_percentage : ℚ)
    (attributions : List A) (train_bbs : List (Option B)) (gt_classes : List Nat) :
    ∀ n, localization_loss_total loss_loc filter_bbs enlarge_bb box_dilation_percentage
        n attributions train_bbs gt_classes =
      ∑ i in Finset.range n,
        (train_bbs.getD i none).elim 0
          (fun t => loss_loc (attributions.getD i default)
            (if 0 < box_dilation_percentage then
              enlarge_bb (filter_bbs t (gt_classes.getD i 0)) box_dilation_percentage
             else filter_bbs t (gt_classes.getD i 0))) := by
  intro n
  induction n with
  | zero => rfl
  | succ n ih =>
    unfold localization_loss_total at ih ⊢
    rw [List.range_succ, List.foldl_append, List.foldl_cons, List.foldl_nil,
      Finset.sum_range_succ, ih]
    cases h : train_bbs.getD n none with
    | none => simp [h]
    | some t => simp [h]

/-! ### Claim theorems -/

/-- Claim C1: the loss backpropagated for a training batch combines the
classification loss with an optional localization loss: with
`--optimize_explanations` set, `batch_loss` equals the classification loss
plus `localization_loss_lambda` times the sum of per-image localization
losses `loss_loc(attributions[img_idx], bb_list)` over the images of the
batch whose bounding-box annotation is not `None` (annotation-less images
contribute nothing); without the flag, `batch_loss` is the classification
loss alone. -/
theorem C1_batch_loss_composition {A B : Type} [Inhabited A]
    (localization_loss_lambda : ℚ)
    (loss_loc : A → List B → ℚ)
    (filter_bbs : B → Nat → List B)
    (enlarge_bb : List B → ℚ → List B)
    (box_dilation_percentage : ℚ)
    (classification_loss : ℚ)
    (n : Nat)
    (attributions : List A) (train_bbs : List (Option B)) (gt_classes : List Nat) :
    train_batch_loss true localization_loss_lambda loss_loc filter_bbs enlarge_bb
        box_dilation_percentage classification_loss n attributions train_bbs gt_classes =
      classification_loss + localization_loss_lambda *
        ∑ i in Finset.range n,
          (train_bbs.getD i none).elim 0
            (fun t => loss_loc (attributions.getD i default)
              (if 0 < box_dilation_percentage then
                enlarge_bb (filter_bbs t (gt_classes.getD i 0)) box_dilation_percentage
               else filter_bbs t (gt_classes.getD i 0))) ∧
    train_batch_loss false localization_loss_lambda loss_loc filter_bbs enlarge_bb
        box_dilation_percentage classification_loss n attributions train_bbs gt_classes =
      classification_loss := by
  constructor
  · simp only [train_batch_loss, if_true]
    rw [localization_loss_total_eq_sum]
    ring
  · simp [train_batch_loss]

/-- Claim C2: `eval_model`, as called from `main` with the group names
`GROUP_NAMES`, computes group-wise accuracy across exactly the four
spurious-correlation subgroups `Landbird_on_Land`, `Landbird_on_Water`,
`Waterbird_on_Land`, `Waterbird_on_Water`, and in addition its returned dict
contains an `"Accuracy"` entry and an `"Average-Loss"` entry equal to the
summed per-batch loss divided by `num_batches`. -/
theorem C2_eval_group_accuracy {P X F A B : Type}
    (fwd : P → Mode → List X → List (List ℚ) × F)
    (attributor : Option (F → List (List ℚ) → Nat → Nat → A))
    (filter_bbs : B → Nat → List B)
    (bbCompute iouCompute : List (A × List B) → ℚ)
    (loader : List (Batch X B)) (num_batches : ℚ)
    (loss_fn : List (List ℚ) → List (List ℚ) → Tens)
    (ms : ModelState P) :
    GROUP_NAMES =
      ["Landbird_on_Land", "Landbird_on_Water", "Waterbird_on_Land", "Waterbird_on_Water"] ∧
    (eval_model fwd attributor filter_bbs bbCompute iouCompute loader num_batches loss_fn
      GROUP_NAMES ms).group_acc_vals.map Prod.fst = GROUP_NAMES ∧
    ((eval_model fwd attributor filter_bbs bbCompute iouCompute loader num_batches loss_fn
      GROUP_NAMES ms).metric_vals.lookup "Accuracy").isSome = true ∧
    (eval_model fwd attributor filter_bbs bbCompute iouCompute loader num_batches loss_fn
      GROUP_NAMES ms).metric_vals.lookup "Average-Loss" =
      some ((loader.map
          (fun b => (loss_fn (fwd ms.params Mode.eval b.images).1 b.labels).val)).sum
        / num_batches) := by
  refine ⟨rfl, ?_, ?_, ?_⟩
  · have hgm := evalBatches_gm fwd ms.params attributor filter_bbs loss_fn loader
      ⟨⟨0, false⟩, ⟨0, 0⟩, ⟨GROUP_NAMES, GROUP_NAMES.map (fun _ => (0, 0))⟩, []⟩
    simp only [eval_model, GroupedAccuracyMetric.compute]
    rw [List.map_fst_zip]
    · exact hgm.1
    · rw [List.length_map, hgm.2, hgm.1]
      simp
  · simp only [eval_model, MultiLabelMetrics.compute]
    cases attributor <;> simp [List.lookup]
  · have hl := evalBatches_total_loss fwd ms.params attributor filter_bbs loss_fn loader
      ⟨⟨0, false⟩, ⟨0, 0⟩, ⟨GROUP_NAMES, GROUP_NAMES.map (fun _ => (0, 0))⟩, []⟩
    simp only [eval_model, MultiLabelMetrics.compute, hl]
    cases attributor <;> simp [List.lookup]

/-- Claim C3: the dict returned by `eval_model` contains the
explanation-quality entries `"BB-Loc"` and `"BB-IoU"` if and only if a
non-`None` attributor is passed, and when the attributor is `None` no
bounding-box attribution update is performed at all. -/
theorem C3_bb_keys_iff_attributor {P X F A B : Type}
    (fwd : P → Mode → List X → List (List ℚ) × F)
    (attributor : Option (F → List (List ℚ) → Nat → Nat → A))
    (filter_bbs : B → Nat → List B)
    (bbCompute iouCompute : List (A × List B) → ℚ)
    (loader : List (Batch X B)) (num_batches : ℚ)
    (loss_fn : List (List ℚ) → List (List ℚ) → Tens)
    (group_names : List String)
    (ms : ModelState P) :
    ((eval_model fwd attributor filter_bbs bbCompute iouCompute loader num_batches loss_fn
      group_names ms).metric_vals.lookup "BB-Loc").isSome = attributor.isSome ∧
    ((eval_model fwd attributor filter_bbs bbCompute iouCompute loader num_batches loss_fn
      group_names ms).metric_vals.lookup "BB-IoU").isSome = attributor.isSome ∧
    (attributor = none →
      (eval_model fwd attributor filter_bbs bbCompute iouCompute loader num_batches loss_fn
        group_names ms).bb_updates = []) := by
  refine ⟨?_, ?_, ?_⟩
  · simp only [eval_model, MultiLabelMetrics.compute]
    cases attributor <;> simp [List.lookup]
  · simp only [eval_model, MultiLabelMetrics.compute]
    cases attributor <;> simp [List.lookup]
  · intro h
    subst h
    simp only [eval_model]
    exact evalBatches_bb_none fwd ms.params filter_bbs loss_fn loader _

/-- Witness for claim C3: with no attributor, on an empty loader, neither
explanation-quality key is present and no bounding-box update happens. -/
theorem C3_bb_keys_iff_attributor_witness :
    (eval_model (P := Unit) (X := Unit) (F := Unit) (A := Unit) (B := Unit)
      (fun _ _ xs => (xs.map (fun _ => [0]), ())) none (fun _ _ => [])
      (fun _ => 0) (fun _ => 0) [] 1 (fun _ _ => ⟨0, false⟩) GROUP_NAMES
      ⟨(), Mode.train⟩).bb_updates = [] :=
  (C3_bb_keys_iff_attributor (fun _ _ xs => (xs.map (fun _ => [0]), ())) none (fun _ _ => [])
    (fun _ => 0) (fun _ => 0) [] 1 (fun _ _ => ⟨0, false⟩) GROUP_NAMES
    ⟨(), Mode.train⟩).2.2 rfl

/-- Claim C10: `eval_model` switches the model to eval mode at entry, runs the
batch loop in eval mode, and leaves the model in training mode on return with
its parameters untouched; every accumulated loss is detached. -/
theorem C10_eval_restores_train_mode {P X F A B : Type}
    (fwd : P → Mode → List X → List (List ℚ) × F)
    (attributor : Option (F → List (List ℚ) → Nat → Nat → A))
    (filter_bbs : B → Nat → List B)
    (bbCompute iouCompute : List (A × List B) → ℚ)
    (loader : List (Batch X B)) (num_batches : ℚ)
    (loss_fn : List (List ℚ) → List (List ℚ) → Tens)
    (group_names : List String)
    (ms : ModelState P) :
    (eval_model fwd attributor filter_bbs bbCompute iouCompute loader num_batches loss_fn
      group_names ms).modelState = ⟨ms.params, Mode.train⟩ ∧
    (eval_model fwd attributor filter_bbs bbCompute iouCompute loader num_batches loss_fn
      group_names ms).duringMode = Mode.eval ∧
    (eval_model fwd attributor filter_bbs bbCompute iouCompute loader num_batches loss_fn
      group_names ms).total_loss.requires_grad = false := by
  refine ⟨rfl, rfl, ?_⟩
  simp only [eval_model]
  rw [evalBatches_total_loss]

/-- Claim C8: evaluation happens only at epochs `e` with `(e+1)` a multiple of
`--evaluation_frequency`; the stop condition compares the best accuracy of the
previous evaluations (fetched before the tracker is updated with the current
metrics), so training never stops at the first evaluation, and when it does
stop at epoch `s` some strictly earlier evaluation exists and every strictly
earlier evaluation scored below `min_acc`; the single checkpoint written is
`model_checkpoint_stopped_{s+1}.pt` with `"model"` set to `None` and
`"BelowThresh"` set to `True`, and the final / acc-best checkpoints are never
written. -/
theorem C8_early_stopping {P : Type} (a : TrainArgs) (te : Nat → P → P)
    (vm : Nat → Metrics) (tm : P → Metrics) (uvm : Metrics → Metrics) (p0 : P)
    (out : RunOutcome P)
    (hrun : runTraining a te vm tm uvm p0 = .ok out) :
    (∀ e ∈ out.state.evalEpochs, (e + 1) % a.evaluation_frequency = 0) ∧
    (∀ s, out.stoppedAt = some s →
      (∃ e ∈ out.state.evalEpochs, e < s) ∧
      (∀ e ∈ out.state.evalEpochs, e < s → trackerAcc (vm e) < a.min_acc) ∧
      out.state.saved = [stoppedCkpt a s (vm s)] ∧
      stoppedCkpt (P := P) a s (vm s) =
        ⟨pathJoin (runSavePath a)
            ("model_checkpoint_stopped_" ++ toString (s + 1) ++ ".pt"),
          none, some true, s + 1, vm s⟩) := by
  have hmain := runEpochs_inv a te vm p0 a.total_epochs 0 (initState p0)
    (LoopInv_init a te vm p0)
  rw [← List.range_eq_range'] at hmain
  unfold runTraining at hrun
  rcases hmain with ⟨st2, hre, hInv2⟩ |
    ⟨st2, s, hre, _, _, hfreq, hsv, hmv, hall, hex, hbelow⟩
  · simp only [hre] at hrun
    cases hep : mainEpilogue a tm uvm st2 with
    | error err =>
      simp only [hep] at hrun
      exact (Except.noConfusion hrun)
    | ok st3 =>
      simp only [hep] at hrun
      cases hrun
      constructor
      · intro e he
        have he2 : e ∈ st2.evalEpochs := by
          rw [← mainEpilogue_evalEpochs hep]
          exact he
        exact (hInv2.eval_mem e he2).2
      · intro s2 hs2
        cases hs2
  · simp only [hre] at hrun
    cases hrun
    refine ⟨hall, ?_⟩
    intro s2 hs2
    cases hs2
    exact ⟨hex, hbelow, hsv, rfl⟩

/-- Witness for claim C8: the concrete run with accuracy `0` and
`min_acc = 1` evaluates at epochs 0 and 1 and stops at epoch 1, having
evaluated strictly earlier (at epoch 0), and saves exactly the stopped
checkpoint. -/
theorem C8_early_stopping_witness :
    (∃ e ∈ c8Out.state.evalEpochs, e < 1) ∧
    c8Out.state.saved = [stoppedCkpt c8Args 1 (c8Val 1)] ∧
    c8Out.stoppedAt = some 1 := by
  have h := C8_early_stopping c8Args (fun _ p => p) c8Val (fun _ => [])
    (fun mv => mv) () c8Out rfl
  exact ⟨(h.2 1 rfl).1, (h.2 1 rfl).2.2.1, rfl⟩

/-- Counterexample to claim C6 as stated: with `--total_epochs 1` and
`--evaluation_frequency 2` the training loop completes all epochs without
early termination, yet `main` raises a `NameError` on `metric_vals` (line 350
of the script) and saves no checkpoint at all. -/
theorem C6_counterexample :
    (runEpochs c6Args (fun _ p => p) (fun _ => []) (List.range c6Args.total_epochs)
      (initState ())).2 = none ∧
    runTraining c6Args (fun _ p => p) (fun _ => []) (fun _ => []) (fun mv => mv) () =
      .error (.nameError "metric_vals") :=
  ⟨rfl, rfl⟩

/-- Claim C6 (amended): when the training loop completes all `total_epochs`
epochs without early termination and at least one evaluation ran, `main`
saves exactly two checkpoints, `model_checkpoint_final_{total_epochs}.pt`
with the final model state dict and its test metrics, then
`model_checkpoint_acc_best.pt` with the state dict of the model of the
best-validation-accuracy epoch and its test metrics, both under the save path
composed from `--save_path`, `--dataset`, `--task` and the run name. -/
theorem C6_final_checkpoints {P : Type} (a : TrainArgs) (te : Nat → P → P)
    (vm : Nat → Metrics) (tm : P → Metrics) (uvm : Metrics → Metrics) (p0 : P)
    (hdone : (runEpochs a te vm (List.range a.total_epochs) (initState p0)).2 = none)
    (heval : ∃ e, e < a.total_epochs ∧ (e + 1) % a.evaluation_frequency = 0) :
    ∃ (st : LoopState P) (bP : P) (bE : Nat) (bMv lastMv : Metrics),
      runTraining a te vm tm uvm p0 = .ok ⟨st, none⟩ ∧
      runSavePath a =
        pathJoin (pathJoin (pathJoin a.save_path a.dataset) a.task) a.out_name ∧
      st.saved =
        [⟨pathJoin (runSavePath a)
            ("model_checkpoint_final_" ++ toString a.total_epochs ++ ".pt"),
          some (paramsUpTo te p0 a.total_epochs), none, a.total_epochs,
          tm (paramsUpTo te p0 a.total_epochs) ++ uvm lastMv⟩,
         ⟨pathJoin (runSavePath a) "model_checkpoint_acc_best.pt",
          some bP, none, bE + 1, tm bP ++ uvm bMv⟩] ∧
      bP = paramsUpTo te p0 (bE + 1) ∧
      bE ∈ st.evalEpochs ∧
      bMv = vm bE ∧
      (∀ e ∈ st.evalEpochs, trackerAcc (vm e) ≤ trackerAcc (vm bE)) := by
  have hmain := runEpochs_inv a te vm p0 a.total_epochs 0 (initState p0)
    (LoopInv_init a te vm p0)
  rw [← List.range_eq_range'] at hmain
  rcases hmain with ⟨st2, hre, hInv2⟩ | ⟨st2, s, hre, _, _, _, _, _, _, _, _⟩
  · rw [Nat.zero_add] at hInv2
    obtain ⟨e0, he0lt, he0p⟩ := heval
    have he0 : e0 ∈ st2.evalEpochs := hInv2.eval_complete e0 he0lt he0p
    have hne : st2.evalEpochs ≠ [] := by
      intro hnil
      rw [hnil] at he0
      cases he0
    cases hb : st2.tracker.best with
    | none => exact absurd (hInv2.tracker_none.1 hb) hne
    | some b =>
      obtain ⟨hIn, hAcc, hMvB, hPB, hMax⟩ :=
        hInv2.tracker_some b.1 b.2.1 b.2.2.1 b.2.2.2 hb
      obtain ⟨lastE, hlast⟩ : ∃ lastE, st2.evalEpochs.getLast? = some lastE := by
        cases hgl : st2.evalEpochs.getLast? with
        | none => exact absurd (List.getLast?_eq_none_iff.1 hgl) hne
        | some lastE => exact ⟨lastE, rfl⟩
      have hmv2 : st2.metric_vals = some (vm lastE) := by
        rw [hInv2.mv_eq, hlast]
        rfl
      have hep := mainEpilogue_eq a tm uvm st2 (vm lastE) b hmv2 hb
      refine ⟨{ st2 with
          params := b.2.1
          saved := st2.saved ++
            [⟨pathJoin (runSavePath a)
                ("model_checkpoint_final_" ++ toString a.total_epochs ++ ".pt"),
              some st2.params, none, a.total_epochs, tm st2.params ++ uvm (vm lastE)⟩,
             ⟨pathJoin (runSavePath a) "model_checkpoint_acc_best.pt",
              some b.2.1, none, b.2.2.1 + 1, tm b.2.1 ++ uvm b.2.2.2⟩]
          paretoSaved := if a.pareto then st2.paretoSaved + 1 else st2.paretoSaved },
        b.2.1, b.2.2.1, b.2.2.2, vm lastE, ?_, rfl, ?_, hPB, hIn, hMvB, ?_⟩
      · unfold runTraining
        simp only [hre, hep]
      · show st2.saved ++ _ = _
        rw [hInv2.saved_nil, List.nil_append, hInv2.params_eq]
      · intro e he
        rw [← hAcc]
        exact hMax e he
  · rw [hre] at hdone
    cases hdone

/-- Witness for the amended claim C6: the concrete two-epoch run with
evaluation every epoch completes and saves exactly the final and acc-best
checkpoints. -/
theorem C6_final_checkpoints_witness :
    ∃ (st : LoopState Unit) (bP : Unit) (bE : Nat) (bMv lastMv : Metrics),
      runTraining c6WitnessArgs (fun _ p => p) (fun _ => [("Accuracy", 1)])
        (fun _ => []) (fun mv => mv) () = .ok ⟨st, none⟩ ∧
      runSavePath c6WitnessArgs =
        pathJoin (pathJoin (pathJoin c6WitnessArgs.save_path c6WitnessArgs.dataset)
          c6WitnessArgs.task) c6WitnessArgs.out_name ∧
      st.saved =
        [⟨pathJoin (runSavePath c6WitnessArgs)
            ("model_checkpoint_final_" ++ toString c6WitnessArgs.total_epochs ++ ".pt"),
          some (paramsUpTo (fun _ p => p) () c6WitnessArgs.total_epochs), none,
          c6WitnessArgs.total_epochs,
          ([] : Metrics) ++ lastMv⟩,
         ⟨pathJoin (runSavePath c6WitnessArgs) "model_checkpoint_acc_best.pt",
          some bP, none, bE + 1, ([] : Metrics) ++ bMv⟩] ∧
      bP = paramsUpTo (fun _ p => p) () (bE + 1) ∧
      bE ∈ st.evalEpochs ∧
      bMv = (fun _ => [("Accuracy", (1 : ℚ))]) bE ∧
      (∀ e ∈ st.evalEpochs,
        trackerAcc ((fun _ => [("Accuracy", (1 : ℚ))]) e) ≤
          trackerAcc ((fun _ => [("Accuracy", (1 : ℚ))]) bE)) :=
  C6_final_checkpoints c6WitnessArgs (fun _ p => p) (fun _ => [("Accuracy", 1)])
    (fun _ => []) (fun mv => mv) () rfl ⟨0, by decide, by decide⟩

/-- Claim C9: `get_loss_upweights` always returns a 1-dimensional tensor of
length 2 whose entries are `(1/3694)/max(1/3694, 1/1101)` and
`(1/1101)/max(1/3694, 1/1101)`, i.e. exactly `[1101/3694, 1]`; its maximum
entry equals `1`; and this tensor is used as the `BCEWithLogitsLoss` weight
exactly when `--use_loss_weights` is truthy. -/
theorem C9_get_loss_upweights :
    get_loss_upweights.length = 2 ∧
    get_loss_upweights =
      [(1/3694 : ℚ) / max (1/3694 : ℚ) (1/1101), (1/1101 : ℚ) / max (1/3694 : ℚ) (1/1101)] ∧
    get_loss_upweights = [1101/3694, 1] ∧
    tensorMax get_loss_upweights = 1 ∧
    (∀ b : Bool, ((chooseLossFn b).weight = some get_loss_upweights ↔ b = true)) := by
  refine ⟨rfl, ?_, ?_, ?_, ?_⟩
  · simp only [get_loss_upweights, List.map, tensorMax, List.foldl, ratMax_eq_max]
  · simp only [get_loss_upweights, List.map, tensorMax, List.foldl, ratMax]
    norm_num
  · simp only [get_loss_upweights, List.map, tensorMax, List.foldl, ratMax]
    norm_num
  · intro b
    cases b <;> simp [chooseLossFn]

/-- Claim C5: for every value of `--model_backbone` in `{bcos, xdnn, vanilla}`,
`main` constructs the corresponding pretrained ResNet-50 variant (B-cos,
fixup/xDNN, torchvision respectively) and replaces its final classification
layer with one producing exactly 2 outputs; for any other backbone value the
backbone-dispatch branch raises `NotImplementedError`. -/
theorem C5_backbone_dispatch :
    buildBackbone "bcos" = .ok ⟨.bcosHubPretrained, 2⟩ ∧
    buildBackbone "xdnn" =
      .ok ⟨.xdnnCheckpoint "weights/xdnn/xfixup_resnet50_model_best.pth.tar", 2⟩ ∧
    buildBackbone "vanilla" = .ok ⟨.torchvisionImageNetV1, 2⟩ ∧
    (∀ s : String, s ≠ "bcos" → s ≠ "xdnn" → s ≠ "vanilla" →
      buildBackbone s = .error "NotImplementedError") ∧
    (∀ (s : String) (spec : BackboneSpec),
      buildBackbone s = .ok spec → spec.finalLayerOutputs = 2) := by
  refine ⟨rfl, rfl, rfl, ?_, ?_⟩
  · intro s h1 h2 h3
    simp [buildBackbone, h1, h2, h3]
  · intro s spec h
    simp only [buildBackbone] at h
    split_ifs at h <;> simp only [Except.ok.injEq] at h <;> try cases h
    all_goals rfl

/-- Witness for claim C5: the backbone value `resnet18` is not one of the
three supported ones and is rejected with `NotImplementedError`. -/
theorem C5_backbone_dispatch_witness :
    buildBackbone "resnet18" = .error "NotImplementedError" :=
  C5_backbone_dispatch.2.2.2.1 "resnet18" (by decide) (by decide) (by decide)

/-- Claim C7: training always starts from a pretrained network: when
`--model_path` is `None` the model comes from the ImageNet-pretrained weights
of the selected backbone with no further overwrite, and when `--model_path`
is given the state dict is additionally overwritten from that checkpoint's
`"model"` entry before training begins. -/
theorem C7_pretrained_init :
    (∀ mp : Option String,
      initModel "bcos" mp = .ok ⟨⟨.bcosHubPretrained, 2⟩, mp⟩ ∧
      initModel "xdnn" mp =
        .ok ⟨⟨.xdnnCheckpoint "weights/xdnn/xfixup_resnet50_model_best.pth.tar", 2⟩, mp⟩ ∧
      initModel "vanilla" mp = .ok ⟨⟨.torchvisionImageNetV1, 2⟩, mp⟩) ∧
    (∀ (s : String) (mp : Option String) (m : ModelInit),
      initModel s mp = .ok m → m.overrideFrom = mp ∧ buildBackbone s = .ok m.backbone) := by
  constructor
  · intro mp
    exact ⟨rfl, rfl, rfl⟩
  · intro s mp m h
    simp only [initModel] at h
    cases hb : buildBackbone s with
    | error e => rw [hb] at h; cases h
    | ok b => rw [hb] at h; cases h; exact ⟨rfl, rfl⟩

/-- Witness for claim C7: with `--model_backbone bcos` and
`--model_path checkpoints/run.pt`, the state dict is overwritten from that
checkpoint. -/
theorem C7_pretrained_init_witness :
    (⟨⟨.bcosHubPretrained, 2⟩, some "checkpoints/run.pt"⟩ : ModelInit).overrideFrom =
      some "checkpoints/run.pt" :=
  (C7_pretrained_init.2 "bcos" (some "checkpoints/run.pt")
    ⟨⟨.bcosHubPretrained, 2⟩, some "checkpoints/run.pt"⟩ rfl).1

/-- Claim C4: the train, validation and test sets are all loaded via
`datasets.WaterbirdsDetectParsed` from a root path built from `--data_path`,
`--dataset` and the task subdirectory (`birds_processed/` when `--task` is
`birds`, `background_processed/` otherwise), for every value of `--dataset`
(including `VOC2007` and `COCO2014`). -/
theorem C4_waterbirds_loading :
    (∀ data_path dataset task : String,
      (loadDatasets data_path dataset task).map (fun s => (s.loader, s.image_set)) =
        [("WaterbirdsDetectParsed", "train"), ("WaterbirdsDetectParsed", "val"),
         ("WaterbirdsDetectParsed", "test")] ∧
      ∀ s ∈ loadDatasets data_path dataset task, s.root = datasetRoot data_path dataset task) ∧
    (∀ data_path dataset : String,
      datasetRoot data_path dataset "birds" =
        pathJoin (pathJoin data_path dataset) "birds_processed/") ∧
    (∀ data_path dataset task : String, task ≠ "birds" →
      datasetRoot data_path dataset task =
        pathJoin (pathJoin data_path dataset) "background_processed/") := by
  refine ⟨?_, ?_, ?_⟩
  · intro data_path dataset task
    refine ⟨rfl, ?_⟩
    intro s hs
    simp only [loadDatasets, List.mem_cons, List.not_mem_nil, or_false] at hs
    rcases hs with rfl | rfl | rfl <;> rfl
  · intro data_path dataset
    simp [datasetRoot]
  · intro data_path dataset task h
    simp [datasetRoot, h]

/-- Witness for claim C4: with the default `--data_path datasets/`,
`--dataset VOC2007` and `--task background`, the root is
`datasets/VOC2007/background_processed/`. -/
theorem C4_waterbirds_loading_witness :
    datasetRoot "datasets/" "VOC2007" "background" =
      "datasets/VOC2007/background_processed/" := by
  have h := C4_waterbirds_loading.2.2 "datasets/" "VOC2007" "background" (by decide)
  rw [h]
  decide

end TrainWaterbirds
